import Mathlib

set_option autoImplicit false
set_option maxRecDepth 4000

/-!
Verification development for the `website_analyzer` crawler
(`src/website_analyzer/crawler.py`).

The crawler is embedded shallowly: the mutable instance state
(`self.urls_to_visit`, `self.visited_urls`) and the loop-local state
(`page_count`, `crawl_stats['pages']`) become an explicit `LoopState`
that is threaded through a fuel-indexed loop function.  The external
collaborators (`utils.normalize_url`, `utils.is_same_domain`,
`utils.is_downloadable_file`, the Playwright navigation layer, the optional
screenshot capturer and lighthouse auditor) are parameters of a
`CrawlEnv` record, since the crawler only calls them through their
interfaces.  Exceptions raised by navigation / collaborators / link
extraction are modelled with `Except Unit`; context creation failures
(`browser.new_context`), which in the source happen *outside* the
`try`, short-circuit the whole crawl.  The state additionally carries
ghost instrumentation: the number of opened and closed browser
contexts, the count of bad-status responses, the list of URLs for
which a navigation was attempted, and the sequence of states observed
at each evaluation of the `while` condition.
-/

/-- Mirror of the `page_info` dict built for each successfully loaded page
(lines 146-151 of `crawler.py`). -/
structure PageInfo where
  url : String
  number : Nat
  screenshots : List String
  lighthouse : Option Nat
  deriving DecidableEq

/-- Ghost record of the crawler state at one evaluation of the
`while self.urls_to_visit and page_count < self.max_pages` condition. -/
structure CheckPoint where
  frontier : List String
  visited : List String
  count : Nat
  deriving DecidableEq

/-- The mutable state of one `crawl()` invocation: the instance fields
`urls_to_visit` / `visited_urls`, the loop locals `page_count` /
`crawl_stats['pages']`, plus ghost instrumentation (context opens/closes,
bad-status count, attempted navigations, loop-condition trace). -/
structure LoopState where
  urls_to_visit : List String
  visited_urls : List String
  page_count : Nat
  pages : List PageInfo
  opens : Nat
  closes : Nat
  badStatus : Nat
  fetches : List String
  checks : List CheckPoint
  deriving DecidableEq

/-- Outcome of `page.goto(url, ...)`: a Playwright timeout, some other
exception, or a response (`none` models a null response object). -/
inductive GotoRes where
  | timeout : GotoRes
  | exn : GotoRes
  | resp : Option Nat → GotoRes
  deriving DecidableEq

/-- The environment a crawl runs in: the pure `utils` helpers, the
behaviour of the browser boundary, and the optional collaborators. -/
structure CrawlEnv where
  normalize : String → String
  is_same_domain : String → String → Bool
  is_downloadable_file : String → Bool
  setupFail : Bool
  ctxFail : String → Bool
  goto : String → GotoRes
  screenshotter : Option (String → Nat → Except Unit (List String))
  auditor : Option (String → Nat → Except Unit Nat)
  rawLinks : String → Except Unit (List String)

/-- Prefix test on character lists; `charsPrefixOf p l` holds when `p` is a
prefix of `l`. -/
def charsPrefixOf : List Char → List Char → Bool
  | [], _ => true
  | _ :: _, [] => false
  | a :: as, b :: bs => a == b && charsPrefixOf as bs

/-- The Python test `link.startswith(p)` for a single candidate pattern `p`. -/
def strStarts (link p : String) : Bool :=
  charsPrefixOf p.data link.data

/-- `WebCrawler.extract_links` (lines 34-68): filter the raw `href` values of
the page through scheme / same-domain / downloadable checks and normalize
the survivors.  `links` is the result of the `page.evaluate` call. -/
def extract_links (env : CrawlEnv) (links : List String) (base_url : String) : List String :=
  links.filterMap fun link =>
    if !(strStarts link "http://" || strStarts link "https://") then none
    else if !(env.is_same_domain base_url link) then none
    else if env.is_downloadable_file link then none
    else some (env.normalize link)

/-- `WebCrawler.url_in_list` (lines 70-85): membership in a list of URLs up to
normalization. -/
def url_in_list (env : CrawlEnv) (url : String) (url_list : List String) : Bool :=
  url_list.any fun list_url => env.normalize list_url == env.normalize url

/-- One iteration of the enqueue loop at lines 178-188: re-normalize the link
and append it to the frontier unless it is already visited or queued. -/
def enqueueStep (env : CrawlEnv) (s : LoopState) (link : String) : LoopState :=
  if env.normalize link ∈ s.visited_urls then s
  else if url_in_list env (env.normalize link) s.urls_to_visit then s
  else { s with urls_to_visit := s.urls_to_visit ++ [env.normalize link] }

/-- The whole enqueue loop at lines 178-188. -/
def enqueueAll (env : CrawlEnv) (s : LoopState) (links : List String) : LoopState :=
  links.foldl (enqueueStep env) s

/-- Ghost step: record the state observed at one evaluation of the `while`
condition (line 121). -/
def addCheck (s : LoopState) : LoopState :=
  { s with checks := s.checks ++ [⟨s.urls_to_visit, s.visited_urls, s.page_count⟩] }

/-- State after the per-page context has been opened for normalized URL `n`
(lines 123-144): the URL popped (frontier tail `rest`), marked visited, one
context opened, a navigation attempted. -/
def afterFetch (s : LoopState) (rest : List String) (n : String) : LoopState :=
  { s with urls_to_visit := rest, visited_urls := n :: s.visited_urls,
           opens := s.opens + 1, fetches := s.fetches ++ [n] }

/-- The tail of the success path (lines 174-194): extract and enqueue the
links of the loaded page, append its `page_info`, increment `page_count`,
and run the `finally` close.  `s1` is the state after the navigation. -/
def recordPage (env : CrawlEnv) (start' : String) (s1 : LoopState) (n : String)
    (shots : List String) (light : Option Nat) (raw : List String) : LoopState :=
  let se := enqueueAll env s1 (extract_links env raw start')
  { se with pages := se.pages ++ [{ url := n, number := se.page_count,
                                    screenshots := shots, lighthouse := light }],
            page_count := se.page_count + 1,
            closes := se.closes + 1 }

/-- The body of the `while` loop (lines 122-201) for one dequeued URL
`current_url` (the frontier tail being `rest`).  `Except.error ()` models an
exception escaping the loop body: in the source only `browser.new_context` /
`context.new_page` (lines 143-144) run outside the `try`, so only a context
creation failure escapes.  Every path through the `try` ends in the `finally`
close (line 201); the failed-status path additionally runs the explicit close
at line 159 before its `continue`, hence closes twice. -/
def crawlStep (env : CrawlEnv) (start' : String) (s : LoopState)
    (current_url : String) (rest : List String) : Except Unit LoopState :=
  if env.normalize current_url ∈ s.visited_urls then
    Except.ok { s with urls_to_visit := rest }
  else if env.is_downloadable_file (env.normalize current_url) then
    Except.ok { s with
                urls_to_visit := rest,
                visited_urls := env.normalize current_url :: s.visited_urls }
  else if env.ctxFail (env.normalize current_url) then Except.error ()
  else
    match env.goto (env.normalize current_url) with
    | GotoRes.timeout =>
      Except.ok { afterFetch s rest (env.normalize current_url) with closes := s.closes + 1 }
    | GotoRes.exn =>
      Except.ok { afterFetch s rest (env.normalize current_url) with closes := s.closes + 1 }
    | GotoRes.resp resp =>
      if (match resp with | none => true | some st => decide (400 ≤ st)) then
        Except.ok { afterFetch s rest (env.normalize current_url) with
                    closes := s.closes + 2, badStatus := s.badStatus + 1 }
      else
        match (match env.screenshotter with
               | none => Except.ok []
               | some cap => cap (env.normalize current_url) s.page_count) with
        | Except.error _ =>
          Except.ok { afterFetch s rest (env.normalize current_url) with closes := s.closes + 1 }
        | Except.ok shots =>
          match (match env.auditor with
                 | none => Except.ok none
                 | some aud => Except.map some (aud (env.normalize current_url) s.page_count)) with
          | Except.error _ =>
            Except.ok { afterFetch s rest (env.normalize current_url) with closes := s.closes + 1 }
          | Except.ok light =>
            match env.rawLinks (env.normalize current_url) with
            | Except.error _ =>
              Except.ok { afterFetch s rest (env.normalize current_url) with closes := s.closes + 1 }
            | Except.ok raw =>
              Except.ok (recordPage env start' (afterFetch s rest (env.normalize current_url))
                (env.normalize current_url) shots light raw)

/-- The `while` loop of `crawl` (lines 121-201), indexed by fuel.  `none`
means the fuel ran out before the loop finished; since every iteration either
increments `page_count` (bounded by `max_pages`) or shortens the frontier,
sufficiently large fuel always suffices.  The condition mirrors the Python
short-circuit `self.urls_to_visit and page_count < self.max_pages`. -/
def crawlLoop (env : CrawlEnv) (mp : Nat) (start' : String) :
    Nat → LoopState → Option (Except Unit LoopState)
  | 0, _ => none
  | Nat.succ fuel, s =>
    match s.urls_to_visit with
    | [] => some (Except.ok (addCheck s))
    | current_url :: rest =>
      if mp ≤ s.page_count then some (Except.ok (addCheck s))
      else
        match crawlStep env start' (addCheck s) current_url rest with
        | Except.error e => some (Except.error e)
        | Except.ok s2 => crawlLoop env mp start' fuel s2

/-- The instance fields of a `WebCrawler` (`self.urls_to_visit`,
`self.visited_urls`), which survive across `crawl()` invocations. -/
structure InstState where
  urls_to_visit : List String
  visited_urls : List String
  deriving DecidableEq

/-- A freshly constructed `WebCrawler` (lines 31-32). -/
def freshInst : InstState := ⟨[], []⟩

/-- The fields of the returned `crawl_stats` dict that the embedding tracks
(timestamps and duration are real-time values outside the model). -/
structure CrawlStats where
  start_url : String
  pages_crawled : Nat
  pages : List PageInfo
  deriving DecidableEq

/-- Result of a `crawl()` invocation: fuel exhaustion (model artefact), an
exception propagating to the caller, or a normal return carrying the stats
dict together with the final state. -/
inductive CrawlOutcome where
  | fuelOut : CrawlOutcome
  | raised : CrawlOutcome
  | ok : CrawlStats → LoopState → CrawlOutcome
  deriving DecidableEq

/-- The loop state at entry of the `while` loop: the normalized start URL has
been appended to the (possibly non-empty) instance frontier (line 104), the
loop locals are zeroed. -/
def initState (inst : InstState) (start' : String) : LoopState :=
  { urls_to_visit := inst.urls_to_visit ++ [start'], visited_urls := inst.visited_urls,
    page_count := 0, pages := [], opens := 0, closes := 0,
    badStatus := 0, fetches := [], checks := [] }

/-- `WebCrawler.crawl` (lines 87-216), on a crawler whose instance fields
currently hold `inst`.  A `setupFail` models `sync_playwright()` /
`chromium.launch` failing (lines 116-118), which aborts the crawl. -/
def crawl (env : CrawlEnv) (max_pages fuel : Nat) (inst : InstState)
    (start_url : String) : CrawlOutcome :=
  let start' := env.normalize start_url
  if env.setupFail then CrawlOutcome.raised
  else
    match crawlLoop env max_pages start' fuel (initState inst start') with
    | none => CrawlOutcome.fuelOut
    | some (Except.error _) => CrawlOutcome.raised
    | some (Except.ok f) =>
        CrawlOutcome.ok { start_url := start', pages_crawled := f.page_count, pages := f.pages } f

/-- Whether `page.goto` yielded a usable response for `u`: a non-null
response with status `< 400` (line 157). -/
def fetch_good (env : CrawlEnv) (u : String) : Bool :=
  match env.goto u with
  | GotoRes.resp (some st) => decide (st < 400)
  | _ => false

/-- Whether link extraction on the page at `u` returns without raising. -/
def links_ok (env : CrawlEnv) (u : String) : Bool :=
  match env.rawLinks u with
  | Except.ok _ => true
  | Except.error _ => false

/-- Everything that must have held of a URL for its `page_info` to have been
appended to `crawl_stats['pages']`. -/
def page_ok (env : CrawlEnv) (p : PageInfo) : Prop :=
  env.is_downloadable_file p.url = false ∧ fetch_good env p.url = true ∧
    links_ok env p.url = true

/-! ### The deduplication invariant (claim C2) -/

/-- The frontier never holds two URLs with the same normal form, and never
holds a URL whose normal form is already visited. -/
def frontierInv (env : CrawlEnv) (s : LoopState) : Prop :=
  (s.urls_to_visit.map env.normalize).Nodup ∧
  ∀ v ∈ s.urls_to_visit, env.normalize v ∉ s.visited_urls

/-- Recorded pages have pairwise distinct URLs, all of them visited. -/
def pagesInv (s : LoopState) : Prop :=
  (s.pages.map PageInfo.url).Nodup ∧ ∀ p ∈ s.pages, p.url ∈ s.visited_urls

/-- The per-checkpoint form of `frontierInv`. -/
def checkInv (env : CrawlEnv) (c : CheckPoint) : Prop :=
  (c.frontier.map env.normalize).Nodup ∧ ∀ v ∈ c.frontier, env.normalize v ∉ c.visited

/-- The full dedup invariant. -/
def dedupInv (env : CrawlEnv) (s : LoopState) : Prop :=
  frontierInv env s ∧ pagesInv s ∧ ∀ c ∈ s.checks, checkInv env c

/-- Projection helpers used to state concrete-run facts. -/
def crawlPagesCrawled (o : CrawlOutcome) : Option Nat :=
  match o with
  | CrawlOutcome.ok st _ => some st.pages_crawled
  | _ => none

def crawlPageUrls (o : CrawlOutcome) : Option (List String) :=
  match o with
  | CrawlOutcome.ok st _ => some (st.pages.map PageInfo.url)
  | _ => none

def crawlOpens (o : CrawlOutcome) : Option Nat :=
  match o with
  | CrawlOutcome.ok _ f => some f.opens
  | _ => none

def crawlCloses (o : CrawlOutcome) : Option Nat :=
  match o with
  | CrawlOutcome.ok _ f => some f.closes
  | _ => none

def crawlFetches (o : CrawlOutcome) : Option (List String) :=
  match o with
  | CrawlOutcome.ok _ f => some f.fetches
  | _ => none

def instAfter (o : CrawlOutcome) : Option InstState :=
  match o with
  | CrawlOutcome.ok _ f => some ⟨f.urls_to_visit, f.visited_urls⟩
  | _ => none

def crawlRaised (o : CrawlOutcome) : Bool :=
  match o with
  | CrawlOutcome.raised => true
  | _ => false

/-- First component of a normal crawl result (the returned stats dict). -/
def statsOf (o : CrawlOutcome) : CrawlStats :=
  match o with
  | CrawlOutcome.ok st _ => st
  | _ => ⟨"", 0, []⟩

/-- Second component of a normal crawl result (the final loop state). -/
def finalOf (o : CrawlOutcome) : LoopState :=
  match o with
  | CrawlOutcome.ok _ f => f
  | _ => initState freshInst ""

/-- A benign concrete environment: identity normalization, everything
same-domain, nothing downloadable, every navigation succeeds with status 200,
no collaborators, pages without links. -/
def baseEnv : CrawlEnv where
  normalize := fun u => u
  is_same_domain := fun _ _ => true
  is_downloadable_file := fun _ => false
  setupFail := false
  ctxFail := fun _ => false
  goto := fun _ => GotoRes.resp (some 200)
  screenshotter := none
  auditor := none
  rawLinks := fun _ => Except.ok []

/-- Page `a` links to `b`; used with `max_pages = 1` so the budget stops the
crawl while the frontier still holds `b`. -/
def envC1 : CrawlEnv :=
  { baseEnv with
    rawLinks := fun u => if u = "http://a" then Except.ok ["http://b"] else Except.ok [] }

/-- Page `a` links to `b` twice and back to `a` itself. -/
def envC2 : CrawlEnv :=
  { baseEnv with
    rawLinks := fun u =>
      if u = "http://a" then Except.ok ["http://b", "http://b", "http://a"]
      else Except.ok [] }

/-- Page `a` links to `b` and `c`; navigation to `b` times out. -/
def envC3 : CrawlEnv :=
  { baseEnv with
    goto := fun u => if u = "http://b" then GotoRes.timeout else GotoRes.resp (some 200),
    rawLinks := fun u =>
      if u = "http://a" then Except.ok ["http://b", "http://c"] else Except.ok [] }

/-- Navigation succeeds but link extraction raises on every page. -/
def envC4 : CrawlEnv :=
  { baseEnv with rawLinks := fun _ => Except.error () }

/-- Instance state of a crawler that already crawled `http://a` in `baseEnv`. -/
def c5Inst : InstState :=
  (instAfter (crawl baseEnv 5 10 freshInst "http://a")).getD freshInst

/-- Every navigation yields HTTP status 404. -/
def envC6 : CrawlEnv :=
  { baseEnv with goto := fun _ => GotoRes.resp (some 404) }

/-- Page `a` links to `b` (status 404) and `c` (timeout). -/
def envC6m : CrawlEnv :=
  { baseEnv with
    goto := fun u =>
      if u = "http://b" then GotoRes.resp (some 404)
      else if u = "http://c" then GotoRes.timeout
      else GotoRes.resp (some 200),
    rawLinks := fun u =>
      if u = "http://a" then Except.ok ["http://b", "http://c"] else Except.ok [] }

/-- The diamond site graph of the spec: `a` links to `b` and `c`, both of
which link to `d`. -/
def envC7 : CrawlEnv :=
  { baseEnv with
    rawLinks := fun u =>
      if u = "http://a" then Except.ok ["http://b", "http://c"]
      else if u = "http://b" then Except.ok ["http://d"]
      else if u = "http://c" then Except.ok ["http://d"]
      else Except.ok [] }

/-- Page `a` links to a downloadable file and to `b`. -/
def envC8 : CrawlEnv :=
  { baseEnv with
    is_downloadable_file := fun u => u = "http://a/x.pdf",
    rawLinks := fun u =>
      if u = "http://a" then Except.ok ["http://a/x.pdf", "http://b"]
      else Except.ok [] }

/-- Context creation fails for page `a`. -/
def envC9 : CrawlEnv :=
  { baseEnv with ctxFail := fun u => u = "http://a" }

/-- The screenshot collaborator raises on every page. -/
def envC9m : CrawlEnv :=
  { baseEnv with screenshotter := some fun _ _ => Except.error () }

/-- The seed URL itself is a downloadable file. -/
def envC10 : CrawlEnv :=
  { baseEnv with is_downloadable_file := fun u => u = "http://a.pdf" }

/-! ### Basic lemmas about the enqueue loop and the step function -/

lemma enqueueStep_fields (env : CrawlEnv) (s : LoopState) (link : String) :
    (enqueueStep env s link).visited_urls = s.visited_urls ∧
    (enqueueStep env s link).page_count = s.page_count ∧
    (enqueueStep env s link).pages = s.pages ∧
    (enqueueStep env s link).opens = s.opens ∧
    (enqueueStep env s link).closes = s.closes ∧
    (enqueueStep env s link).badStatus = s.badStatus ∧
    (enqueueStep env s link).fetches = s.fetches ∧
    (enqueueStep env s link).checks = s.checks := by
  unfold enqueueStep
  split
  · exact ⟨rfl, rfl, rfl, rfl, rfl, rfl, rfl, rfl⟩
  · split
    · exact ⟨rfl, rfl, rfl, rfl, rfl, rfl, rfl, rfl⟩
    · exact ⟨rfl, rfl, rfl, rfl, rfl, rfl, rfl, rfl⟩

lemma enqueueAll_fields (env : CrawlEnv) : ∀ (links : List String) (s : LoopState),
    (enqueueAll env s links).visited_urls = s.visited_urls ∧
    (enqueueAll env s links).page_count = s.page_count ∧
    (enqueueAll env s links).pages = s.pages ∧
    (enqueueAll env s links).opens = s.opens ∧
    (enqueueAll env s links).closes = s.closes ∧
    (enqueueAll env s links).badStatus = s.badStatus ∧
    (enqueueAll env s links).fetches = s.fetches ∧
    (enqueueAll env s links).checks = s.checks := by
  intro links
  induction links with
  | nil => intro s; exact ⟨rfl, rfl, rfl, rfl, rfl, rfl, rfl, rfl⟩
  | cons l ls ih =>
    intro s
    have hs := enqueueStep_fields env s l
    have ht := ih (enqueueStep env s l)
    exact ⟨ht.1.trans hs.1, ht.2.1.trans hs.2.1, ht.2.2.1.trans hs.2.2.1,
      ht.2.2.2.1.trans hs.2.2.2.1, ht.2.2.2.2.1.trans hs.2.2.2.2.1,
      ht.2.2.2.2.2.1.trans hs.2.2.2.2.2.1, ht.2.2.2.2.2.2.1.trans hs.2.2.2.2.2.2.1,
      ht.2.2.2.2.2.2.2.trans hs.2.2.2.2.2.2.2⟩

/-- Exhaustive characterization of one loop-body execution that returns
normally: already-visited skip, downloadable skip, a failed page (timeout,
exception, collaborator or extraction error: one `finally` close), a
bad-status page (explicit close plus `finally` close), or a recorded page. -/
lemma crawlStep_shape (env : CrawlEnv) (start' : String) (s : LoopState)
    (u : String) (rest : List String) (r : LoopState)
    (h : crawlStep env start' s u rest = Except.ok r) :
    (env.normalize u ∈ s.visited_urls ∧ r = { s with urls_to_visit := rest }) ∨
    (env.normalize u ∉ s.visited_urls ∧ env.is_downloadable_file (env.normalize u) = true ∧
      r = { s with
            urls_to_visit := rest,
            visited_urls := env.normalize u :: s.visited_urls }) ∨
    (env.normalize u ∉ s.visited_urls ∧ env.is_downloadable_file (env.normalize u) = false ∧
      env.ctxFail (env.normalize u) = false ∧
      r = { afterFetch s rest (env.normalize u) with closes := s.closes + 1 }) ∨
    (env.normalize u ∉ s.visited_urls ∧ env.is_downloadable_file (env.normalize u) = false ∧
      env.ctxFail (env.normalize u) = false ∧
      r = { afterFetch s rest (env.normalize u) with
            closes := s.closes + 2, badStatus := s.badStatus + 1 }) ∨
    (env.normalize u ∉ s.visited_urls ∧ env.is_downloadable_file (env.normalize u) = false ∧
      env.ctxFail (env.normalize u) = false ∧
      fetch_good env (env.normalize u) = true ∧ links_ok env (env.normalize u) = true ∧
      ∃ shots light raw, env.rawLinks (env.normalize u) = Except.ok raw ∧
        r = recordPage env start' (afterFetch s rest (env.normalize u))
              (env.normalize u) shots light raw) := by
  unfold crawlStep at h
  split at h
  · next h1 => exact Or.inl ⟨h1, (Except.ok.inj h).symm⟩
  · next h1 =>
    split at h
    · next h2 => exact Or.inr (Or.inl ⟨h1, h2, (Except.ok.inj h).symm⟩)
    · next h2 =>
      rw [Bool.not_eq_true] at h2
      split at h
      · next h3 => exact Except.noConfusion h
      · next h3 =>
        rw [Bool.not_eq_true] at h3
        split at h
        · next hg => exact Or.inr (Or.inr (Or.inl ⟨h1, h2, h3, (Except.ok.inj h).symm⟩))
        · next hg => exact Or.inr (Or.inr (Or.inl ⟨h1, h2, h3, (Except.ok.inj h).symm⟩))
        · next resp hg =>
          split at h
          · next hb =>
            exact Or.inr (Or.inr (Or.inr (Or.inl ⟨h1, h2, h3, (Except.ok.inj h).symm⟩)))
          · next hb =>
            have hfg : fetch_good env (env.normalize u) = true := by
              cases resp with
              | none => simp at hb
              | some st =>
                simp only [decide_eq_true_eq] at hb
                simp [fetch_good, hg, Nat.lt_of_not_le hb]
            split at h
            · next e hsc =>
              exact Or.inr (Or.inr (Or.inl ⟨h1, h2, h3, (Except.ok.inj h).symm⟩))
            · next shots hsc =>
              split at h
              · next e haud =>
                exact Or.inr (Or.inr (Or.inl ⟨h1, h2, h3, (Except.ok.inj h).symm⟩))
              · next light haud =>
                split at h
                · next e hraw =>
                  exact Or.inr (Or.inr (Or.inl ⟨h1, h2, h3, (Except.ok.inj h).symm⟩))
                · next raw hraw =>
                  refine Or.inr (Or.inr (Or.inr (Or.inr ⟨h1, h2, h3, hfg, ?_,
                    shots, light, raw, hraw, (Except.ok.inj h).symm⟩)))
                  simp [links_ok, hraw]

/-- The loop body escapes with an exception only when context creation for the
dequeued URL fails (lines 143-144 are outside the `try`). -/
lemma crawlStep_error_ctx (env : CrawlEnv) (start' : String) (s : LoopState)
    (u : String) (rest : List String) (e : Unit)
    (h : crawlStep env start' s u rest = Except.error e) :
    env.ctxFail (env.normalize u) = true := by
  unfold crawlStep at h
  split at h
  · exact Except.noConfusion h
  · split at h
    · exact Except.noConfusion h
    · split at h
      · next h3 => exact h3
      · next h3 =>
        split at h
        · exact Except.noConfusion h
        · exact Except.noConfusion h
        · split at h
          · exact Except.noConfusion h
          · split at h
            · exact Except.noConfusion h
            · split at h
              · exact Except.noConfusion h
              · split at h
                · exact Except.noConfusion h
                · exact Except.noConfusion h

/-- If context creation cannot fail, the loop body always returns normally. -/
lemma crawlStep_total (env : CrawlEnv) (start' : String) (s : LoopState)
    (u : String) (rest : List String)
    (hctx : env.ctxFail (env.normalize u) = false) :
    ∃ r, crawlStep env start' s u rest = Except.ok r := by
  cases hc : crawlStep env start' s u rest with
  | error e =>
    have := crawlStep_error_ctx env start' s u rest e hc
    rw [hctx] at this
    exact Bool.noConfusion this
  | ok r => exact ⟨r, rfl⟩

lemma crawlStep_checks (env : CrawlEnv) (start' : String) (s : LoopState)
    (u : String) (rest : List String) (r : LoopState)
    (h : crawlStep env start' s u rest = Except.ok r) : r.checks = s.checks := by
  rcases crawlStep_shape env start' s u rest r h with
    ⟨_, rfl⟩ | ⟨_, _, rfl⟩ | ⟨_, _, _, rfl⟩ | ⟨_, _, _, rfl⟩ |
    ⟨_, _, _, _, _, shots, light, raw, hraw, rfl⟩
  · rfl
  · rfl
  · simp [afterFetch]
  · simp [afterFetch]
  · simp only [recordPage]
    exact ((enqueueAll_fields env _ _).2.2.2.2.2.2.2).trans (by simp [afterFetch])

lemma crawlStep_count_le (env : CrawlEnv) (start' : String) (s : LoopState)
    (u : String) (rest : List String) (r : LoopState)
    (h : crawlStep env start' s u rest = Except.ok r) :
    r.page_count ≤ s.page_count + 1 := by
  rcases crawlStep_shape env start' s u rest r h with
    ⟨_, rfl⟩ | ⟨_, _, rfl⟩ | ⟨_, _, _, rfl⟩ | ⟨_, _, _, rfl⟩ |
    ⟨_, _, _, _, _, shots, light, raw, hraw, rfl⟩
  · exact Nat.le_succ _
  · exact Nat.le_succ _
  · simp [afterFetch]
  · simp [afterFetch]
  · simp only [recordPage]
    rw [(enqueueAll_fields env (extract_links env raw start')
      (afterFetch s rest (env.normalize u))).2.1]
    simp [afterFetch]

lemma enqueueAll_visited (env : CrawlEnv) (links : List String) (s : LoopState) :
    (enqueueAll env s links).visited_urls = s.visited_urls :=
  (enqueueAll_fields env links s).1

lemma enqueueAll_count (env : CrawlEnv) (links : List String) (s : LoopState) :
    (enqueueAll env s links).page_count = s.page_count :=
  (enqueueAll_fields env links s).2.1

lemma enqueueAll_pages (env : CrawlEnv) (links : List String) (s : LoopState) :
    (enqueueAll env s links).pages = s.pages :=
  (enqueueAll_fields env links s).2.2.1

lemma enqueueAll_opens (env : CrawlEnv) (links : List String) (s : LoopState) :
    (enqueueAll env s links).opens = s.opens :=
  (enqueueAll_fields env links s).2.2.2.1

lemma enqueueAll_closes (env : CrawlEnv) (links : List String) (s : LoopState) :
    (enqueueAll env s links).closes = s.closes :=
  (enqueueAll_fields env links s).2.2.2.2.1

lemma enqueueAll_bad (env : CrawlEnv) (links : List String) (s : LoopState) :
    (enqueueAll env s links).badStatus = s.badStatus :=
  (enqueueAll_fields env links s).2.2.2.2.2.1

lemma enqueueAll_fetches (env : CrawlEnv) (links : List String) (s : LoopState) :
    (enqueueAll env s links).fetches = s.fetches :=
  (enqueueAll_fields env links s).2.2.2.2.2.2.1

lemma enqueueAll_checks (env : CrawlEnv) (links : List String) (s : LoopState) :
    (enqueueAll env s links).checks = s.checks :=
  (enqueueAll_fields env links s).2.2.2.2.2.2.2

lemma crawlStep_count_pages (env : CrawlEnv) (start' : String) (s : LoopState)
    (u : String) (rest : List String) (r : LoopState)
    (h : crawlStep env start' s u rest = Except.ok r)
    (hcp : s.page_count = s.pages.length) : r.page_count = r.pages.length := by
  rcases crawlStep_shape env start' s u rest r h with
    ⟨_, rfl⟩ | ⟨_, _, rfl⟩ | ⟨_, _, _, rfl⟩ | ⟨_, _, _, rfl⟩ |
    ⟨_, _, _, _, _, shots, light, raw, hraw, rfl⟩
  · exact hcp
  · exact hcp
  · exact hcp
  · exact hcp
  · simp [recordPage, enqueueAll_count, enqueueAll_pages, afterFetch, hcp]

lemma crawlStep_pages_ok (env : CrawlEnv) (start' : String) (s : LoopState)
    (u : String) (rest : List String) (r : LoopState)
    (h : crawlStep env start' s u rest = Except.ok r)
    (hp : ∀ p ∈ s.pages, page_ok env p) : ∀ p ∈ r.pages, page_ok env p := by
  rcases crawlStep_shape env start' s u rest r h with
    ⟨_, rfl⟩ | ⟨_, _, rfl⟩ | ⟨_, _, _, rfl⟩ | ⟨_, _, _, rfl⟩ |
    ⟨h1, h2, h3, hfg, hlo, shots, light, raw, hraw, rfl⟩
  · exact hp
  · exact hp
  · exact hp
  · exact hp
  · intro p hpmem
    simp only [recordPage, enqueueAll_pages, afterFetch, List.mem_append,
      List.mem_singleton] at hpmem
    rcases hpmem with hpmem | rfl
    · exact hp p hpmem
    · exact ⟨h2, hfg, hlo⟩

lemma crawlStep_closes (env : CrawlEnv) (start' : String) (s : LoopState)
    (u : String) (rest : List String) (r : LoopState)
    (h : crawlStep env start' s u rest = Except.ok r)
    (hc : s.closes = s.opens + s.badStatus) : r.closes = r.opens + r.badStatus := by
  rcases crawlStep_shape env start' s u rest r h with
    ⟨_, rfl⟩ | ⟨_, _, rfl⟩ | ⟨_, _, _, rfl⟩ | ⟨_, _, _, rfl⟩ |
    ⟨_, _, _, _, _, shots, light, raw, hraw, rfl⟩
  · exact hc
  · exact hc
  · simp only [afterFetch]; omega
  · simp only [afterFetch]; omega
  · simp only [recordPage, enqueueAll_closes, enqueueAll_opens, enqueueAll_bad, afterFetch]
    omega

lemma crawlStep_opens (env : CrawlEnv) (start' : String) (s : LoopState)
    (u : String) (rest : List String) (r : LoopState)
    (h : crawlStep env start' s u rest = Except.ok r)
    (ho : s.opens = s.fetches.length) : r.opens = r.fetches.length := by
  rcases crawlStep_shape env start' s u rest r h with
    ⟨_, rfl⟩ | ⟨_, _, rfl⟩ | ⟨_, _, _, rfl⟩ | ⟨_, _, _, rfl⟩ |
    ⟨_, _, _, _, _, shots, light, raw, hraw, rfl⟩
  · exact ho
  · exact ho
  · simp only [afterFetch, List.length_append, List.length_singleton]; omega
  · simp only [afterFetch, List.length_append, List.length_singleton]; omega
  · simp only [recordPage, enqueueAll_opens, enqueueAll_fetches, afterFetch,
      List.length_append, List.length_singleton]
    omega

lemma crawlStep_fetches_nodl (env : CrawlEnv) (start' : String) (s : LoopState)
    (u : String) (rest : List String) (r : LoopState)
    (h : crawlStep env start' s u rest = Except.ok r)
    (hf : ∀ v ∈ s.fetches, env.is_downloadable_file v = false) :
    ∀ v ∈ r.fetches, env.is_downloadable_file v = false := by
  rcases crawlStep_shape env start' s u rest r h with
    ⟨_, rfl⟩ | ⟨_, _, rfl⟩ | ⟨_, h2, _, rfl⟩ | ⟨_, h2, _, rfl⟩ |
    ⟨_, h2, _, _, _, shots, light, raw, hraw, rfl⟩
  · exact hf
  · exact hf
  · intro v hv
    simp only [afterFetch, List.mem_append, List.mem_singleton] at hv
    rcases hv with hv | rfl
    · exact hf v hv
    · exact h2
  · intro v hv
    simp only [afterFetch, List.mem_append, List.mem_singleton] at hv
    rcases hv with hv | rfl
    · exact hf v hv
    · exact h2
  · intro v hv
    simp only [recordPage, enqueueAll_fetches, afterFetch, List.mem_append,
      List.mem_singleton] at hv
    rcases hv with hv | rfl
    · exact hf v hv
    · exact h2

/-! ### Lemmas about the crawl loop -/

/-- Generic preservation: any property preserved by the ghost check record and
by every normally-returning loop-body execution carries to the final state. -/
lemma crawlLoop_preserve (env : CrawlEnv) (mp : Nat) (start' : String)
    (P : LoopState → Prop)
    (hcheck : ∀ s, P s → P (addCheck s))
    (hstep : ∀ s u rest r, P s → s.urls_to_visit = u :: rest → s.page_count < mp →
      crawlStep env start' s u rest = Except.ok r → P r) :
    ∀ (fuel : Nat) (s f : LoopState),
      crawlLoop env mp start' fuel s = some (Except.ok f) → P s → P f := by
  intro fuel
  induction fuel with
  | zero => intro s f h hP; simp [crawlLoop] at h
  | succ n ih =>
    intro s f h hP
    simp only [crawlLoop] at h
    split at h
    · next hu =>
      simp only [Option.some.injEq, Except.ok.injEq] at h
      exact h ▸ hcheck s hP
    · next u rest hu =>
      split at h
      · next hmp =>
        simp only [Option.some.injEq, Except.ok.injEq] at h
        exact h ▸ hcheck s hP
      · next hmp =>
        split at h
        · next e hc => exact Except.noConfusion (Option.some.inj h)
        · next s2 hc =>
          exact ih s2 f h
            (hstep (addCheck s) u rest s2 (hcheck s hP) hu (Nat.lt_of_not_le hmp) hc)

/-- A normally finishing loop stopped for one of the two official reasons:
the frontier drained, or the page budget was reached. -/
lemma crawlLoop_exit (env : CrawlEnv) (mp : Nat) (start' : String) :
    ∀ (fuel : Nat) (s f : LoopState),
      crawlLoop env mp start' fuel s = some (Except.ok f) →
      f.urls_to_visit = [] ∨ mp ≤ f.page_count := by
  intro fuel
  induction fuel with
  | zero => intro s f h; simp [crawlLoop] at h
  | succ n ih =>
    intro s f h
    simp only [crawlLoop] at h
    split at h
    · next hu =>
      simp only [Option.some.injEq, Except.ok.injEq] at h
      subst h
      exact Or.inl hu
    · next u rest hu =>
      split at h
      · next hmp =>
        simp only [Option.some.injEq, Except.ok.injEq] at h
        subst h
        exact Or.inr hmp
      · next hmp =>
        split at h
        · next e hc => exact Except.noConfusion (Option.some.inj h)
        · next s2 hc => exact ih s2 f h

/-- If the final `page_count` equals the budget, then at every evaluation of
the loop condition at which the budget was not yet reached, the frontier was
non-empty. -/
lemma crawlLoop_checks_budget (env : CrawlEnv) (mp : Nat) (start' : String) :
    ∀ (fuel : Nat) (s f : LoopState),
      crawlLoop env mp start' fuel s = some (Except.ok f) →
      f.page_count = mp →
      (∀ c ∈ s.checks, c.count < mp → c.frontier ≠ []) →
      ∀ c ∈ f.checks, c.count < mp → c.frontier ≠ [] := by
  intro fuel
  induction fuel with
  | zero => intro s f h; simp [crawlLoop] at h
  | succ n ih =>
    intro s f h hf hs
    simp only [crawlLoop] at h
    split at h
    · next hu =>
      simp only [Option.some.injEq, Except.ok.injEq] at h
      subst h
      intro c hc hclt
      simp only [addCheck, List.mem_append, List.mem_singleton] at hc
      rcases hc with hc | rfl
      · exact hs c hc hclt
      · have h1 : s.page_count < mp := hclt
        have h2 : s.page_count = mp := hf
        omega
    · next u rest hu =>
      split at h
      · next hmp =>
        simp only [Option.some.injEq, Except.ok.injEq] at h
        subst h
        intro c hc hclt
        simp only [addCheck, List.mem_append, List.mem_singleton] at hc
        rcases hc with hc | rfl
        · exact hs c hc hclt
        · have h1 : s.page_count < mp := hclt
          omega
      · next hmp =>
        split at h
        · next e hc2 => exact Except.noConfusion (Option.some.inj h)
        · next s2 hc2 =>
          apply ih s2 f h hf
          have hch := crawlStep_checks env start' (addCheck s) u rest s2 hc2
          intro c hc hclt
          rw [hch] at hc
          simp only [addCheck, List.mem_append, List.mem_singleton] at hc
          rcases hc with hc | rfl
          · exact hs c hc hclt
          · show s.urls_to_visit ≠ []
            simp [hu]

/-- If context creation never fails, the loop never lets an exception escape. -/
lemma crawlLoop_no_raise (env : CrawlEnv) (mp : Nat) (start' : String)
    (hctx : ∀ v, env.ctxFail v = false) :
    ∀ (fuel : Nat) (s : LoopState),
      crawlLoop env mp start' fuel s ≠ some (Except.error ()) := by
  intro fuel
  induction fuel with
  | zero => intro s h; simp [crawlLoop] at h
  | succ n ih =>
    intro s h
    simp only [crawlLoop] at h
    split at h
    · simp at h
    · split at h
      · simp at h
      · split at h
        · next e hc =>
          have := crawlStep_error_ctx env start' (addCheck s) _ _ e hc
          rw [hctx] at this
          exact Bool.noConfusion this
        · next s2 hc => exact ih s2 h

/-- Unpacking a normally returning `crawl` into its loop run. -/
lemma crawl_ok (env : CrawlEnv) (mp fuel : Nat) (inst : InstState) (start_url : String)
    (st : CrawlStats) (f : LoopState)
    (h : crawl env mp fuel inst start_url = CrawlOutcome.ok st f) :
    crawlLoop env mp (env.normalize start_url) fuel (initState inst (env.normalize start_url))
      = some (Except.ok f) ∧
    st.pages_crawled = f.page_count ∧ st.pages = f.pages ∧
    st.start_url = env.normalize start_url ∧ env.setupFail = false := by
  simp only [crawl] at h
  split at h
  · exact CrawlOutcome.noConfusion h
  · next hsetup =>
    split at h
    · exact CrawlOutcome.noConfusion h
    · exact CrawlOutcome.noConfusion h
    · next f' hl =>
      obtain ⟨h1, h2⟩ := CrawlOutcome.ok.inj h
      subst h2
      subst h1
      exact ⟨hl, rfl, rfl, rfl, by simpa using hsetup⟩


lemma dedupInv_of_fields (env : CrawlEnv) (s t : LoopState)
    (h1 : t.urls_to_visit = s.urls_to_visit) (h2 : t.visited_urls = s.visited_urls)
    (h3 : t.pages = s.pages) (h4 : t.checks = s.checks)
    (h : dedupInv env s) : dedupInv env t := by
  unfold dedupInv frontierInv pagesInv at *
  rw [h1, h2, h3, h4]
  exact h

lemma enqueueStep_frontierInv (env : CrawlEnv)
    (hidem : ∀ v, env.normalize (env.normalize v) = env.normalize v)
    (s : LoopState) (link : String)
    (hf : frontierInv env s) : frontierInv env (enqueueStep env s link) := by
  unfold enqueueStep
  split
  · exact hf
  · next hvis =>
    split
    · exact hf
    · next hq =>
      rw [Bool.not_eq_true] at hq
      simp only [url_in_list, List.any_eq_false, beq_iff_eq, hidem] at hq
      constructor
      · simp only [List.map_append, List.map_cons, List.map_nil, hidem]
        rw [List.nodup_append]
        refine ⟨hf.1, List.nodup_singleton _, ?_⟩
        intro x hx hx'
        simp only [List.mem_singleton] at hx'
        subst hx'
        rw [List.mem_map] at hx
        obtain ⟨lu, hlu, heq⟩ := hx
        exact hq lu hlu heq
      · intro v hv
        rcases List.mem_append.mp hv with hv | hv
        · exact hf.2 v hv
        · simp only [List.mem_singleton] at hv
          subst hv
          rw [hidem]
          exact fun hmem => hvis hmem
lemma enqueueAll_frontierInv (env : CrawlEnv)
    (hidem : ∀ v, env.normalize (env.normalize v) = env.normalize v) :
    ∀ (links : List String) (s : LoopState),
      frontierInv env s → frontierInv env (enqueueAll env s links) := by
  intro links
  induction links with
  | nil => intro s h; exact h
  | cons l ls ih =>
    intro s h
    exact ih (enqueueStep env s l) (enqueueStep_frontierInv env hidem s l h)

/-- Popping the head of a deduplicated frontier. -/
lemma frontier_pop (env : CrawlEnv) (s : LoopState) (u : String) (rest : List String)
    (hu : s.urls_to_visit = u :: rest) (hf : frontierInv env s) :
    (rest.map env.normalize).Nodup ∧
    (∀ v ∈ rest, env.normalize v ≠ env.normalize u) ∧
    (∀ v ∈ rest, env.normalize v ∉ s.visited_urls) ∧
    env.normalize u ∉ s.visited_urls := by
  have h1 := hf.1
  rw [hu] at h1
  simp only [List.map_cons, List.nodup_cons] at h1
  refine ⟨h1.2, ?_, ?_, ?_⟩
  · intro v hv heq
    exact h1.1 (heq ▸ List.mem_map_of_mem env.normalize hv)
  · intro v hv
    exact hf.2 v (by rw [hu]; exact List.mem_cons_of_mem _ hv)
  · exact hf.2 u (by rw [hu]; exact List.mem_cons_self _ _)

/-- One loop-body execution preserves the dedup invariant (assuming
`normalize_url` is idempotent, as the spec requires). -/
lemma crawlStep_dedupInv (env : CrawlEnv)
    (hidem : ∀ v, env.normalize (env.normalize v) = env.normalize v)
    (start' : String) (s : LoopState) (u : String) (rest : List String) (r : LoopState)
    (hu : s.urls_to_visit = u :: rest)
    (h : crawlStep env start' s u rest = Except.ok r)
    (hI : dedupInv env s) : dedupInv env r := by
  obtain ⟨hfr, hpg, hck⟩ := hI
  obtain ⟨hnd, hne, hnv, hnu⟩ := frontier_pop env s u rest hu hfr
  have hmark : dedupInv env { s with
      urls_to_visit := rest,
      visited_urls := env.normalize u :: s.visited_urls } := by
    refine ⟨⟨hnd, ?_⟩, ⟨hpg.1, ?_⟩, hck⟩
    · intro v hv
      simp only [List.mem_cons, not_or]
      exact ⟨hne v hv, hnv v hv⟩
    · intro p hp
      exact List.mem_cons_of_mem _ (hpg.2 p hp)
  rcases crawlStep_shape env start' s u rest r h with
    ⟨hvis, rfl⟩ | ⟨_, _, rfl⟩ | ⟨_, _, _, rfl⟩ | ⟨_, _, _, rfl⟩ |
    ⟨h1, h2, h3, hfg, hlo, shots, light, raw, hraw, rfl⟩
  · exact absurd hvis hnu
  · exact hmark
  · exact dedupInv_of_fields env _ _ rfl rfl rfl rfl hmark
  · exact dedupInv_of_fields env _ _ rfl rfl rfl rfl hmark
  · have hfr1 : frontierInv env (afterFetch s rest (env.normalize u)) := hmark.1
    have hfrse := enqueueAll_frontierInv env hidem (extract_links env raw start')
      (afterFetch s rest (env.normalize u)) hfr1
    have hsp : (enqueueAll env (afterFetch s rest (env.normalize u))
        (extract_links env raw start')).pages = s.pages :=
      enqueueAll_pages env _ _
    have hsv : (enqueueAll env (afterFetch s rest (env.normalize u))
        (extract_links env raw start')).visited_urls
        = env.normalize u :: s.visited_urls :=
      enqueueAll_visited env _ _
    have hsc : (enqueueAll env (afterFetch s rest (env.normalize u))
        (extract_links env raw start')).checks = s.checks :=
      enqueueAll_checks env _ _
    refine ⟨⟨?_, ?_⟩, ⟨?_, ?_⟩, ?_⟩
    · exact hfrse.1
    · intro v hv
      simp only [recordPage, hsv]
      exact hsv ▸ hfrse.2 v hv
    · simp only [recordPage, List.map_append, List.map_cons, List.map_nil, hsp]
      rw [List.nodup_append]
      refine ⟨hpg.1, List.nodup_singleton _, ?_⟩
      intro x hx hx'
      simp only [List.mem_singleton] at hx'
      subst hx'
      rw [List.mem_map] at hx
      obtain ⟨p, hp, heq⟩ := hx
      exact h1 (heq ▸ hpg.2 p hp)
    · intro p hp
      simp only [recordPage, hsp, List.mem_append, List.mem_singleton] at hp
      simp only [recordPage, hsv]
      rcases hp with hp | rfl
      · exact List.mem_cons_of_mem _ (hpg.2 p hp)
      · exact List.mem_cons_self _ _
    · simp only [recordPage, hsc]
      exact hck

/-! ### Crawl-level consequences -/

lemma crawl_budget (env : CrawlEnv) (mp fuel : Nat) (inst : InstState) (start_url : String)
    (st : CrawlStats) (f : LoopState)
    (h : crawl env mp fuel inst start_url = CrawlOutcome.ok st f) :
    f.page_count ≤ mp := by
  obtain ⟨hl, -, -, -, -⟩ := crawl_ok env mp fuel inst start_url st f h
  exact crawlLoop_preserve env mp (env.normalize start_url)
    (fun s => s.page_count ≤ mp)
    (fun s hP => hP)
    (fun s u rest r hP hu hlt hc =>
      le_trans (crawlStep_count_le env _ s u rest r hc) (Nat.succ_le_of_lt hlt))
    fuel _ f hl (Nat.zero_le mp)

lemma crawl_pages_ok (env : CrawlEnv) (mp fuel : Nat) (inst : InstState) (start_url : String)
    (st : CrawlStats) (f : LoopState)
    (h : crawl env mp fuel inst start_url = CrawlOutcome.ok st f) :
    ∀ p ∈ f.pages, page_ok env p := by
  obtain ⟨hl, -, -, -, -⟩ := crawl_ok env mp fuel inst start_url st f h
  exact crawlLoop_preserve env mp (env.normalize start_url)
    (fun s => ∀ p ∈ s.pages, page_ok env p)
    (fun s hP => hP)
    (fun s u rest r hP hu hlt hc => crawlStep_pages_ok env _ s u rest r hc hP)
    fuel _ f hl (by intro p hp; simp [initState] at hp)

lemma crawl_count_eq_pages (env : CrawlEnv) (mp fuel : Nat) (inst : InstState)
    (start_url : String) (st : CrawlStats) (f : LoopState)
    (h : crawl env mp fuel inst start_url = CrawlOutcome.ok st f) :
    f.page_count = f.pages.length := by
  obtain ⟨hl, -, -, -, -⟩ := crawl_ok env mp fuel inst start_url st f h
  exact crawlLoop_preserve env mp (env.normalize start_url)
    (fun s => s.page_count = s.pages.length)
    (fun s hP => hP)
    (fun s u rest r hP hu hlt hc => crawlStep_count_pages env _ s u rest r hc hP)
    fuel _ f hl rfl

lemma crawl_exit_reason (env : CrawlEnv) (mp fuel : Nat) (inst : InstState)
    (start_url : String) (st : CrawlStats) (f : LoopState)
    (h : crawl env mp fuel inst start_url = CrawlOutcome.ok st f) :
    f.urls_to_visit = [] ∨ mp ≤ f.page_count := by
  obtain ⟨hl, -, -, -, -⟩ := crawl_ok env mp fuel inst start_url st f h
  exact crawlLoop_exit env mp (env.normalize start_url) fuel _ f hl

lemma crawl_fetches_not_downloadable (env : CrawlEnv) (mp fuel : Nat) (inst : InstState)
    (start_url : String) (st : CrawlStats) (f : LoopState)
    (h : crawl env mp fuel inst start_url = CrawlOutcome.ok st f) :
    ∀ v ∈ f.fetches, env.is_downloadable_file v = false := by
  obtain ⟨hl, -, -, -, -⟩ := crawl_ok env mp fuel inst start_url st f h
  exact crawlLoop_preserve env mp (env.normalize start_url)
    (fun s => ∀ v ∈ s.fetches, env.is_downloadable_file v = false)
    (fun s hP => hP)
    (fun s u rest r hP hu hlt hc => crawlStep_fetches_nodl env _ s u rest r hc hP)
    fuel _ f hl (by intro v hv; simp [initState] at hv)

lemma crawl_closes_balance (env : CrawlEnv) (mp fuel : Nat) (inst : InstState)
    (start_url : String) (st : CrawlStats) (f : LoopState)
    (h : crawl env mp fuel inst start_url = CrawlOutcome.ok st f) :
    f.closes = f.opens + f.badStatus ∧ f.opens = f.fetches.length := by
  obtain ⟨hl, -, -, -, -⟩ := crawl_ok env mp fuel inst start_url st f h
  exact crawlLoop_preserve env mp (env.normalize start_url)
    (fun s => s.closes = s.opens + s.badStatus ∧ s.opens = s.fetches.length)
    (fun s hP => hP)
    (fun s u rest r hP hu hlt hc =>
      ⟨crawlStep_closes env _ s u rest r hc hP.1, crawlStep_opens env _ s u rest r hc hP.2⟩)
    fuel _ f hl ⟨rfl, rfl⟩

lemma addCheck_dedupInv (env : CrawlEnv) (s : LoopState)
    (hP : dedupInv env s) : dedupInv env (addCheck s) := by
  refine ⟨hP.1, hP.2.1, ?_⟩
  intro c hc
  simp only [addCheck, List.mem_append, List.mem_singleton] at hc
  rcases hc with hc | rfl
  · exact hP.2.2 c hc
  · exact ⟨hP.1.1, hP.1.2⟩

lemma crawl_dedupInv (env : CrawlEnv) (mp fuel : Nat) (start_url : String)
    (st : CrawlStats) (f : LoopState)
    (hidem : ∀ v, env.normalize (env.normalize v) = env.normalize v)
    (h : crawl env mp fuel freshInst start_url = CrawlOutcome.ok st f) :
    dedupInv env f := by
  obtain ⟨hl, -, -, -, -⟩ := crawl_ok env mp fuel freshInst start_url st f h
  refine crawlLoop_preserve env mp (env.normalize start_url) (dedupInv env)
    (addCheck_dedupInv env)
    (fun s u rest r hP hu hlt hc => crawlStep_dedupInv env hidem _ s u rest r hu hc hP)
    fuel _ f hl ?_
  refine ⟨⟨?_, ?_⟩, ⟨?_, ?_⟩, ?_⟩ <;>
    simp [initState, freshInst, frontierInv, pagesInv, checkInv]

lemma extract_links_mem (env : CrawlEnv) (links : List String) (base x : String)
    (hx : x ∈ extract_links env links base) :
    ∃ l ∈ links, env.is_downloadable_file l = false ∧ x = env.normalize l := by
  unfold extract_links at hx
  rw [List.mem_filterMap] at hx
  obtain ⟨l, hl, hfl⟩ := hx
  split at hfl
  · exact Option.noConfusion hfl
  · split at hfl
    · exact Option.noConfusion hfl
    · split at hfl
      · exact Option.noConfusion hfl
      · next hdl => exact ⟨l, hl, by simpa using hdl, (Option.some.inj hfl).symm⟩

/-! ### Claim theorems -/

/-- Claim C1: every returning `crawl()` yields `pages_crawled <= max_pages`,
and `pages_crawled = max_pages` only if at every evaluation of the loop
condition where the budget was not yet reached the frontier was still
non-empty, i.e. the frontier never drained before the budget stopped the
loop. -/
theorem c1_budget_respected (env : CrawlEnv) (mp fuel : Nat) (inst : InstState)
    (start_url : String) (st : CrawlStats) (f : LoopState)
    (h : crawl env mp fuel inst start_url = CrawlOutcome.ok st f) :
    st.pages_crawled ≤ mp ∧
    (st.pages_crawled = mp → ∀ c ∈ f.checks, c.count < mp → c.frontier ≠ []) := by
  obtain ⟨hl, hpc, -, -, -⟩ := crawl_ok env mp fuel inst start_url st f h
  constructor
  · rw [hpc]
    exact crawl_budget env mp fuel inst start_url st f h
  · intro hmax
    refine crawlLoop_checks_budget env mp (env.normalize start_url) fuel _ f hl ?_ ?_
    · rw [← hpc]; exact hmax
    · intro c hc
      simp [initState] at hc

/-- Witness for C1: in `envC1` with `max_pages = 1` the budget is hit
exactly, and the frontier was non-empty at every check before that. -/
theorem c1_budget_respected_witness :
    (statsOf (crawl envC1 1 5 freshInst "http://a")).pages_crawled ≤ 1 ∧
    ((statsOf (crawl envC1 1 5 freshInst "http://a")).pages_crawled = 1 →
      ∀ c ∈ (finalOf (crawl envC1 1 5 freshInst "http://a")).checks,
        c.count < 1 → c.frontier ≠ []) :=
  c1_budget_respected envC1 1 5 freshInst "http://a" _ _ rfl

/-- Claim C2: with idempotent normalization and a fresh crawler, every
normalized URL appears at most once among the recorded pages, no normalized
URL ever appears twice in the frontier at a loop check, and no frontier entry
is ever one whose normal form is already visited. -/
theorem c2_at_most_once (env : CrawlEnv) (mp fuel : Nat) (start_url : String)
    (st : CrawlStats) (f : LoopState)
    (hidem : ∀ v, env.normalize (env.normalize v) = env.normalize v)
    (h : crawl env mp fuel freshInst start_url = CrawlOutcome.ok st f) :
    (st.pages.map PageInfo.url).Nodup ∧
    (∀ c ∈ f.checks, (c.frontier.map env.normalize).Nodup ∧
      ∀ v ∈ c.frontier, env.normalize v ∉ c.visited) := by
  have hd := crawl_dedupInv env mp fuel start_url st f hidem h
  obtain ⟨-, -, hpages, -, -⟩ := crawl_ok env mp fuel freshInst start_url st f h
  constructor
  · rw [hpages]
    exact hd.2.1.1
  · exact fun c hc => ⟨(hd.2.2 c hc).1, (hd.2.2 c hc).2⟩

/-- Witness for C2: page `a` links to `b` twice and to `a` itself, yet every
URL is visited once and the frontier never holds duplicates. -/
theorem c2_at_most_once_witness :
    (∀ v, envC2.normalize (envC2.normalize v) = envC2.normalize v) ∧
    ((statsOf (crawl envC2 10 10 freshInst "http://a")).pages.map PageInfo.url).Nodup ∧
    (∀ c ∈ (finalOf (crawl envC2 10 10 freshInst "http://a")).checks,
      (c.frontier.map envC2.normalize).Nodup ∧
      ∀ v ∈ c.frontier, envC2.normalize v ∉ c.visited) :=
  ⟨fun v => rfl, c2_at_most_once envC2 10 10 "http://a" _ _ (fun v => rfl) rfl⟩

/-- Claim C3: a URL whose navigation times out gets no page record and does
not contribute to `pages_crawled` (which always equals the number of recorded
pages), and the timeout never terminates the loop: the crawl still ends only
because the frontier drained or the budget was reached. -/
theorem c3_timeout_isolation (env : CrawlEnv) (mp fuel : Nat) (inst : InstState)
    (start_url : String) (st : CrawlStats) (f : LoopState) (u : String)
    (h : crawl env mp fuel inst start_url = CrawlOutcome.ok st f)
    (htu : env.goto u = GotoRes.timeout) :
    u ∉ st.pages.map PageInfo.url ∧ st.pages_crawled = st.pages.length ∧
    (f.urls_to_visit = [] ∨ mp ≤ f.page_count) := by
  obtain ⟨-, hpc, hpages, -, -⟩ := crawl_ok env mp fuel inst start_url st f h
  refine ⟨?_, ?_, crawl_exit_reason env mp fuel inst start_url st f h⟩
  · intro hmem
    rw [hpages, List.mem_map] at hmem
    obtain ⟨p, hp, hpu⟩ := hmem
    have hgood := (crawl_pages_ok env mp fuel inst start_url st f h p hp).2.1
    rw [hpu] at hgood
    simp [fetch_good, htu] at hgood
  · rw [hpc, hpages]
    exact crawl_count_eq_pages env mp fuel inst start_url st f h

/-- Witness for C3: `b` times out; the crawl still visits `c` afterwards and
returns with `a` and `c` recorded. -/
theorem c3_timeout_isolation_witness :
    envC3.goto "http://b" = GotoRes.timeout ∧
    "http://b" ∉ (statsOf (crawl envC3 10 10 freshInst "http://a")).pages.map PageInfo.url ∧
    (statsOf (crawl envC3 10 10 freshInst "http://a")).pages_crawled =
      (statsOf (crawl envC3 10 10 freshInst "http://a")).pages.length ∧
    ((finalOf (crawl envC3 10 10 freshInst "http://a")).urls_to_visit = [] ∨
      10 ≤ (finalOf (crawl envC3 10 10 freshInst "http://a")).page_count) ∧
    crawlPageUrls (crawl envC3 10 10 freshInst "http://a") =
      some ["http://a", "http://c"] := by
  have t := c3_timeout_isolation envC3 10 10 freshInst "http://a" _ _ "http://b" rfl rfl
  exact ⟨rfl, t.1, t.2.1, t.2.2, rfl⟩

/-- Counterexample to claim C4 as stated: in `envC4` the fetch of `http://a`
succeeds (status 200) and the navigation was attempted, but link extraction
raises; the claim asserts the page record is still appended and
`pages_crawled` incremented, yet the crawl returns zero pages: the
`except Exception` handler skips the append at lines 193-194. -/
theorem c4_counterexample :
    fetch_good envC4 "http://a" = true ∧
    crawlFetches (crawl envC4 5 10 freshInst "http://a") = some ["http://a"] ∧
    links_ok envC4 "http://a" = false ∧
    crawlPageUrls (crawl envC4 5 10 freshInst "http://a") = some [] ∧
    crawlPagesCrawled (crawl envC4 5 10 freshInst "http://a") = some 0 :=
  ⟨rfl, rfl, rfl, rfl, rfl⟩

/-- Claim C4 (amended): when link extraction raises on a fetched page, the
page is skipped like a failed fetch: it gets no page record, does not count
towards `pages_crawled` (which equals the number of recorded pages), and the
crawl continues to its official termination. -/
theorem c4_extraction_error_page_skipped (env : CrawlEnv) (mp fuel : Nat)
    (inst : InstState) (start_url : String) (st : CrawlStats) (f : LoopState) (u : String)
    (h : crawl env mp fuel inst start_url = CrawlOutcome.ok st f)
    (hre : env.rawLinks u = Except.error ()) :
    u ∉ st.pages.map PageInfo.url ∧ st.pages_crawled = st.pages.length ∧
    (f.urls_to_visit = [] ∨ mp ≤ f.page_count) := by
  obtain ⟨-, hpc, hpages, -, -⟩ := crawl_ok env mp fuel inst start_url st f h
  refine ⟨?_, ?_, crawl_exit_reason env mp fuel inst start_url st f h⟩
  · intro hmem
    rw [hpages, List.mem_map] at hmem
    obtain ⟨p, hp, hpu⟩ := hmem
    have hok := (crawl_pages_ok env mp fuel inst start_url st f h p hp).2.2
    rw [hpu] at hok
    simp [links_ok, hre] at hok
  · rw [hpc, hpages]
    exact crawl_count_eq_pages env mp fuel inst start_url st f h

/-- Witness for the amended C4. -/
theorem c4_extraction_error_page_skipped_witness :
    "http://a" ∉ (statsOf (crawl envC4 5 10 freshInst "http://a")).pages.map PageInfo.url ∧
    (statsOf (crawl envC4 5 10 freshInst "http://a")).pages_crawled =
      (statsOf (crawl envC4 5 10 freshInst "http://a")).pages.length ∧
    ((finalOf (crawl envC4 5 10 freshInst "http://a")).urls_to_visit = [] ∨
      5 ≤ (finalOf (crawl envC4 5 10 freshInst "http://a")).page_count) :=
  c4_extraction_error_page_skipped envC4 5 10 freshInst "http://a" _ _ "http://a" rfl rfl

/-- Counterexample to claim C5 as stated: a fresh crawl of `http://a` in
`baseEnv` records one page, but a second `crawl()` on the same instance
starts with the `visited_urls` of the first crawl still populated and records
nothing: no fetch is even attempted.  The second invocation does not behave
like a crawl on a freshly constructed instance. -/
theorem c5_counterexample :
    crawlPagesCrawled (crawl baseEnv 5 10 freshInst "http://a") = some 1 ∧
    c5Inst.urls_to_visit = [] ∧ c5Inst.visited_urls = ["http://a"] ∧
    crawlPagesCrawled (crawl baseEnv 5 10 c5Inst "http://a") = some 0 ∧
    crawlFetches (crawl baseEnv 5 10 c5Inst "http://a") = some [] :=
  ⟨rfl, rfl, rfl, rfl, rfl⟩

/-- Claim C5 (amended): `visited_urls` and `urls_to_visit` persist across
`crawl()` invocations on the same `WebCrawler`.  Consequently a later crawl
whose normalized start URL was already visited (and whose leftover frontier
is empty) records no page, attempts no fetch, and leaves the visited set
unchanged. -/
theorem c5_visited_state_persists (env : CrawlEnv) (mp fuel : Nat) (inst : InstState)
    (start_url : String) (st : CrawlStats) (f : LoopState)
    (hidem : ∀ v, env.normalize (env.normalize v) = env.normalize v)
    (hfront : inst.urls_to_visit = [])
    (hvis : env.normalize start_url ∈ inst.visited_urls)
    (h : crawl env mp fuel inst start_url = CrawlOutcome.ok st f) :
    st.pages_crawled = 0 ∧ st.pages = [] ∧ f.fetches = [] ∧
    f.visited_urls = inst.visited_urls := by
  obtain ⟨hl, hpc, hpages, -, -⟩ := crawl_ok env mp fuel inst start_url st f h
  have hfin := crawlLoop_preserve env mp (env.normalize start_url)
    (fun s => s.pages = [] ∧ s.fetches = [] ∧ s.page_count = 0 ∧
      s.visited_urls = inst.visited_urls ∧
      ∀ v ∈ s.urls_to_visit, env.normalize v ∈ inst.visited_urls)
    (fun s hP => hP)
    (fun s u rest r hP hu hlt hc => by
      have hvisu : env.normalize u ∈ s.visited_urls := by
        rw [hP.2.2.2.1]
        exact hP.2.2.2.2 u (by rw [hu]; exact List.mem_cons_self _ _)
      rcases crawlStep_shape env _ s u rest r hc with
        ⟨-, rfl⟩ | ⟨hnv, -, -⟩ | ⟨hnv, -, -, -⟩ | ⟨hnv, -, -, -⟩ | ⟨hnv, -, -, -, -, -⟩
      · exact ⟨hP.1, hP.2.1, hP.2.2.1, hP.2.2.2.1,
          fun v hv => hP.2.2.2.2 v (by rw [hu]; exact List.mem_cons_of_mem _ hv)⟩
      · exact absurd hvisu hnv
      · exact absurd hvisu hnv
      · exact absurd hvisu hnv
      · exact absurd hvisu hnv)
    fuel _ f hl
    (by
      refine ⟨rfl, rfl, rfl, rfl, ?_⟩
      intro v hv
      simp only [initState, hfront, List.nil_append, List.mem_singleton] at hv
      subst hv
      rw [hidem]
      exact hvis)
  refine ⟨?_, ?_, hfin.2.1, hfin.2.2.2.1⟩
  · rw [hpc]; exact hfin.2.2.1
  · rw [hpages]; exact hfin.1

/-- Witness for the amended C5, on the persisted instance state `c5Inst`. -/
theorem c5_visited_state_persists_witness :
    (statsOf (crawl baseEnv 7 10 c5Inst "http://a")).pages_crawled = 0 ∧
    (statsOf (crawl baseEnv 7 10 c5Inst "http://a")).pages = [] ∧
    (finalOf (crawl baseEnv 7 10 c5Inst "http://a")).fetches = [] ∧
    (finalOf (crawl baseEnv 7 10 c5Inst "http://a")).visited_urls = c5Inst.visited_urls :=
  c5_visited_state_persists baseEnv 7 10 c5Inst "http://a" _ _
    (fun v => rfl) rfl (by decide) rfl

/-- Counterexample to claim C6 as stated: one page is processed (one context
opened) but its response status is 404, so `context.close()` at line 159 runs
and then the `continue` triggers the `finally` close at line 201 as well: two
close calls are issued for one opened context, not "exactly N" with each
context closed exactly once. -/
theorem c6_counterexample :
    crawlFetches (crawl envC6 5 10 freshInst "http://a") = some ["http://a"] ∧
    crawlOpens (crawl envC6 5 10 freshInst "http://a") = some 1 ∧
    crawlCloses (crawl envC6 5 10 freshInst "http://a") = some 2 :=
  ⟨rfl, rfl, rfl⟩

/-- Claim C6 (amended): for every returning crawl, every navigation attempt
opened exactly one context (`opens` equals the number of fetches) and every
opened context was closed before the loop advanced; the total number of close
calls is `opens` plus one extra close per bad-status page (those are closed
twice), so no context is ever left open but the count of close calls is not
exactly `opens`. -/
theorem c6_contexts_closed (env : CrawlEnv) (mp fuel : Nat) (inst : InstState)
    (start_url : String) (st : CrawlStats) (f : LoopState)
    (h : crawl env mp fuel inst start_url = CrawlOutcome.ok st f) :
    f.closes = f.opens + f.badStatus ∧ f.opens = f.fetches.length :=
  crawl_closes_balance env mp fuel inst start_url st f h

/-- Witness for the amended C6: three pages processed (one success, one 404,
one timeout): three contexts opened, four close calls (the 404 page closed
twice). -/
theorem c6_contexts_closed_witness :
    ((finalOf (crawl envC6m 10 10 freshInst "http://a")).closes =
      (finalOf (crawl envC6m 10 10 freshInst "http://a")).opens +
        (finalOf (crawl envC6m 10 10 freshInst "http://a")).badStatus ∧
    (finalOf (crawl envC6m 10 10 freshInst "http://a")).opens =
      (finalOf (crawl envC6m 10 10 freshInst "http://a")).fetches.length) ∧
    crawlOpens (crawl envC6m 10 10 freshInst "http://a") = some 3 ∧
    crawlCloses (crawl envC6m 10 10 freshInst "http://a") = some 4 :=
  ⟨c6_contexts_closed envC6m 10 10 freshInst "http://a" _ _ rfl, rfl, rfl⟩

/-- Claim C7: breadth-first order on the diamond graph (`a` links to `b`,`c`;
both `b` and `c` link to `d`): with `max_pages = 10` the crawl visits `a`,
then `b` and `c` in discovery order, then `d` exactly once. -/
theorem c7_bfs_order :
    crawlPageUrls (crawl envC7 10 10 freshInst "http://a") =
      some ["http://a", "http://b", "http://c", "http://d"] ∧
    crawlPagesCrawled (crawl envC7 10 10 freshInst "http://a") = some 4 :=
  ⟨rfl, rfl⟩

/-- Claim C8: no recorded page has a URL classified downloadable, no
navigation is ever attempted for a downloadable URL (a dequeued downloadable
URL is skipped before the context/fetch), and `extract_links` only outputs
normalizations of raw links it classified as non-downloadable. -/
theorem c8_downloadable_excluded (env : CrawlEnv) (mp fuel : Nat) (inst : InstState)
    (start_url : String) (st : CrawlStats) (f : LoopState)
    (h : crawl env mp fuel inst start_url = CrawlOutcome.ok st f) :
    (∀ p ∈ st.pages, env.is_downloadable_file p.url = false) ∧
    (∀ v ∈ f.fetches, env.is_downloadable_file v = false) ∧
    (∀ links base x, x ∈ extract_links env links base →
      ∃ l ∈ links, env.is_downloadable_file l = false ∧ x = env.normalize l) := by
  obtain ⟨-, -, hpages, -, -⟩ := crawl_ok env mp fuel inst start_url st f h
  refine ⟨?_, crawl_fetches_not_downloadable env mp fuel inst start_url st f h,
    fun links base x hx => extract_links_mem env links base x hx⟩
  intro p hp
  rw [hpages] at hp
  exact (crawl_pages_ok env mp fuel inst start_url st f h p hp).1

/-- Witness for C8: page `a` links to a downloadable file and to `b`; the
file is filtered out, only `a` and `b` are fetched and recorded. -/
theorem c8_downloadable_excluded_witness :
    (∀ p ∈ (statsOf (crawl envC8 10 10 freshInst "http://a")).pages,
      envC8.is_downloadable_file p.url = false) ∧
    (∀ v ∈ (finalOf (crawl envC8 10 10 freshInst "http://a")).fetches,
      envC8.is_downloadable_file v = false) ∧
    (∀ links base x, x ∈ extract_links envC8 links base →
      ∃ l ∈ links, envC8.is_downloadable_file l = false ∧ x = envC8.normalize l) ∧
    crawlPageUrls (crawl envC8 10 10 freshInst "http://a") =
      some ["http://a", "http://b"] ∧
    crawlFetches (crawl envC8 10 10 freshInst "http://a") =
      some ["http://a", "http://b"] := by
  have t := c8_downloadable_excluded envC8 10 10 freshInst "http://a" _ _ rfl
  exact ⟨t.1, t.2.1, t.2.2, rfl, rfl⟩

/-- Counterexample to claim C9 as stated: in `envC9` the setup phase succeeds
(`setupFail = false`), per-page processing of `http://a` begins, and the
context-creation failure for that page propagates: `crawl` raises instead of
returning a `CrawlStats`.  Lines 143-144 sit outside the `try` block, so
context-creation errors are not caught at the page-loop boundary. -/
theorem c9_counterexample :
    envC9.setupFail = false ∧
    crawl envC9 5 10 freshInst "http://a" = CrawlOutcome.raised :=
  ⟨rfl, rfl⟩

/-- Claim C9 (amended): a crawl raises exactly on setup failure or on a
per-page context-creation failure; every error raised inside the `try` block
(navigation, collaborators, link extraction) is caught at the loop boundary,
so if setup succeeds and context creation never fails, `crawl` never
raises. -/
theorem c9_raise_only_setup_or_ctx (env : CrawlEnv) (mp fuel : Nat) (inst : InstState)
    (start_url : String) :
    (env.setupFail = true → crawl env mp fuel inst start_url = CrawlOutcome.raised) ∧
    (env.setupFail = false → (∀ v, env.ctxFail v = false) →
      crawl env mp fuel inst start_url ≠ CrawlOutcome.raised) := by
  constructor
  · intro hs
    simp [crawl, hs]
  · intro hs hctx hra
    simp only [crawl, hs, Bool.false_eq_true, if_false] at hra
    cases hl : crawlLoop env mp (env.normalize start_url) fuel
        (initState inst (env.normalize start_url)) with
    | none => rw [hl] at hra; exact CrawlOutcome.noConfusion hra
    | some r =>
      cases r with
      | error e =>
        cases e
        exact crawlLoop_no_raise env mp (env.normalize start_url) hctx fuel _ hl
      | ok f2 => rw [hl] at hra; exact CrawlOutcome.noConfusion hra

/-- Witness for the amended C9: the screenshot collaborator raises on every
page, yet the crawl does not raise (the error is caught at the loop
boundary; the page is merely skipped). -/
theorem c9_raise_only_setup_or_ctx_witness :
    envC9m.setupFail = false ∧
    crawl envC9m 5 10 freshInst "http://a" ≠ CrawlOutcome.raised ∧
    crawlPagesCrawled (crawl envC9m 5 10 freshInst "http://a") = some 0 :=
  ⟨rfl,
   (c9_raise_only_setup_or_ctx envC9m 5 10 freshInst "http://a").2 rfl (fun v => rfl),
   rfl⟩

/-- Claim C10: if the normalized start URL classifies as downloadable (and
normalization is idempotent), a crawl on a fresh crawler records nothing,
attempts no navigation, and opens no context: the seed URL is not exempt
from the downloadable-file filter. -/
theorem c10_downloadable_seed (env : CrawlEnv) (mp fuel : Nat) (start_url : String)
    (st : CrawlStats) (f : LoopState)
    (hidem : ∀ v, env.normalize (env.normalize v) = env.normalize v)
    (hdl : env.is_downloadable_file (env.normalize start_url) = true)
    (h : crawl env mp fuel freshInst start_url = CrawlOutcome.ok st f) :
    st.pages_crawled = 0 ∧ st.pages = [] ∧ f.fetches = [] ∧ f.opens = 0 := by
  obtain ⟨hl, hpc, hpages, -, -⟩ := crawl_ok env mp fuel freshInst start_url st f h
  have hfin := crawlLoop_preserve env mp (env.normalize start_url)
    (fun s => s.pages = [] ∧ s.fetches = [] ∧ s.page_count = 0 ∧ s.opens = 0 ∧
      ∀ v ∈ s.urls_to_visit, env.is_downloadable_file (env.normalize v) = true)
    (fun s hP => hP)
    (fun s u rest r hP hu hlt hc => by
      have hdlu : env.is_downloadable_file (env.normalize u) = true :=
        hP.2.2.2.2 u (by rw [hu]; exact List.mem_cons_self _ _)
      rcases crawlStep_shape env _ s u rest r hc with
        ⟨-, rfl⟩ | ⟨-, -, rfl⟩ | ⟨-, h2, -, -⟩ | ⟨-, h2, -, -⟩ | ⟨-, h2, -, -, -, -⟩
      · exact ⟨hP.1, hP.2.1, hP.2.2.1, hP.2.2.2.1,
          fun v hv => hP.2.2.2.2 v (by rw [hu]; exact List.mem_cons_of_mem _ hv)⟩
      · exact ⟨hP.1, hP.2.1, hP.2.2.1, hP.2.2.2.1,
          fun v hv => hP.2.2.2.2 v (by rw [hu]; exact List.mem_cons_of_mem _ hv)⟩
      · rw [hdlu] at h2; exact Bool.noConfusion h2
      · rw [hdlu] at h2; exact Bool.noConfusion h2
      · rw [hdlu] at h2; exact Bool.noConfusion h2)
    fuel _ f hl
    (by
      refine ⟨rfl, rfl, rfl, rfl, ?_⟩
      intro v hv
      simp only [initState, freshInst, List.nil_append, List.mem_singleton] at hv
      subst hv
      rw [hidem]
      exact hdl)
  refine ⟨?_, ?_, hfin.2.1, hfin.2.2.2.1⟩
  · rw [hpc]; exact hfin.2.2.1
  · rw [hpages]; exact hfin.1

/-- Witness for C10: the seed `http://a.pdf` is downloadable; the crawl
returns immediately with nothing fetched. -/
theorem c10_downloadable_seed_witness :
    (statsOf (crawl envC10 5 10 freshInst "http://a.pdf")).pages_crawled = 0 ∧
    (statsOf (crawl envC10 5 10 freshInst "http://a.pdf")).pages = [] ∧
    (finalOf (crawl envC10 5 10 freshInst "http://a.pdf")).fetches = [] ∧
    (finalOf (crawl envC10 5 10 freshInst "http://a.pdf")).opens = 0 :=
  c10_downloadable_seed envC10 5 10 "http://a.pdf" _ _ (fun v => rfl) (by decide) rfl
